import Mathlib

/-!
Shallow embedding of `src/lambda/handler.py`: the Lambda handlers
`schedule_check_in`, `check_in` and `receive_email` for scheduling
Southwest check-ins, together with the external collaborators they
consume (the `swa` gateway library, the `email` parsing library and
the Step Functions client), modelled as explicit parameters.
-/

set_option autoImplicit false

namespace Handler

/-- The `check_in_times` sub-dictionary of the event:
`{'remaining': [...], 'next': ...}`.  The `next` key is absent
(`none`) until the first pop writes it. -/
structure CheckInTimes where
  remaining : List String
  next : Option String
  deriving Repr, DecidableEq

/-- The event dictionary threaded through `schedule_check_in` and
`check_in`: identity fields, the optional `email` key and the optional
`check_in_times` key (absent on the very first invocation). -/
structure Event where
  first_name : String
  last_name : String
  confirmation_number : String
  email : Option String
  check_in_times : Option CheckInTimes
  deriving Repr, DecidableEq

/-- The external `swa` gateway library (`lib.swa`), consumed as an
opaque capability.  `get_reservation` and `check_in` may fail (the
Python functions raise); `email_boarding_pass` may fail and the
failure carries a message.  Reservation data is opaque; we use
`String` as its carrier. -/
structure Swa where
  get_reservation : String → String → String → Except String String
  get_check_in_times_from_reservation : String → List String
  check_in : String → String → String → Except String String
  email_boarding_pass : String → String → String → String → Except String Unit

/-- Errors `schedule_check_in` can raise: `IndexError` from
`list.pop()` on an empty list, or the lookup error propagated from
`swa.get_reservation`. -/
inductive SchedErr where
  | indexError
  | lookupError (msg : String)
  deriving Repr, DecidableEq

/-- Python `list.pop()`: removes and returns the LAST element;
`none` models the `IndexError` on an empty list. -/
def popLast {α : Type} (l : List α) : Option (α × List α) :=
  match l.reverse with
  | [] => none
  | x :: rs => some (x, rs.reverse)

/-- `schedule_check_in(event, context)`:  if `check_in_times` is
already present, pop the next check-in time off `remaining` into
`next` and return the event; otherwise fetch the reservation, store
the planner's queue in `check_in_times['remaining']` and recurse. -/
def schedule_check_in (swa : Swa) (ev : Event) : Except SchedErr Event :=
  match h : ev.check_in_times with
  | some ct =>
      -- event['check_in_times']['next'] = event['check_in_times']['remaining'].pop()
      match popLast ct.remaining with
      | none => .error .indexError
      | some (t, rest) =>
          .ok { ev with check_in_times := some { remaining := rest, next := some t } }
  | none =>
      -- New check-in, fetch reservation
      match swa.get_reservation ev.first_name ev.last_name ev.confirmation_number with
      | .error e => .error (.lookupError e)
      | .ok reservation =>
          let remaining := swa.get_check_in_times_from_reservation reservation
          -- Call ourself now that we have some check-in times.
          schedule_check_in swa
            { ev with check_in_times := some { remaining := remaining, next := none } }
termination_by (match ev.check_in_times with | none => 1 | some _ => 0)
decreasing_by simp [h]

/-- The observable outcome of one `check_in` invocation:
either the `swa.check_in` failure propagated by the bare `raise`,
the `KeyError` from `event['check_in_times']` being absent, the
distinguished continuation signal `NotLastCheckIn`, or a normal
return (`done`). -/
inductive CheckInOutcome where
  | checkInError (msg : String)
  | keyError
  | notLastCheckIn
  | done
  deriving Repr, DecidableEq

/-- `check_in(event, context)`: check the reservation in via the
gateway (a failure is logged and re-raised); if an `email` key is
present, try to email the boarding pass, logging and swallowing any
failure; finally raise `NotLastCheckIn` when `remaining` is
non-empty.  The Python function never writes to `event`, so the
returned event is the input event. -/
def check_in (swa : Swa) (ev : Event) : CheckInOutcome × Event :=
  match swa.check_in ev.first_name ev.last_name ev.confirmation_number with
  | .error e => (.checkInError e, ev)   -- log.error(...); raise
  | .ok _resp =>
      -- if email: try swa.email_boarding_pass(...) except: log.error(...)
      let _emailResult : Option (Except String Unit) :=
        match ev.email with
        | some addr =>
            some (swa.email_boarding_pass ev.first_name ev.last_name
                    ev.confirmation_number addr)
        | none => none
      match ev.check_in_times with
      | none => (.keyError, ev)
      | some ct =>
          if ct.remaining.length > 0 then (.notLastCheckIn, ev) else (.done, ev)

/-- An inbound SES mail notification as exposed by
`email.SesMailNotification`: the fields `receive_email` reads. -/
structure SesMsg where
  source : String
  message_id : String
  deriving Repr, DecidableEq

/-- The reservation dictionary produced by
`email.find_name_and_confirmation_number`; the `email` key is absent
(`none`) unless `receive_email` adds it. -/
structure Resv where
  first_name : String
  last_name : String
  confirmation_number : String
  email : Option String
  deriving Repr, DecidableEq

/-- What `sfn.start_execution` returns: a dictionary with
`executionArn` and `startDate`. -/
structure Execution where
  executionArn : String
  startDate : String
  deriving Repr, DecidableEq

/-- The value `receive_email` returns on success: the execution with
its non-serializable `startDate` deleted. -/
structure ExecResult where
  executionArn : String
  deriving Repr, DecidableEq

/-- The Lambda event for `receive_email`: `event['Records']`, each
holding an SES notification (we keep the fields read by the
handler). -/
structure ReceiveEvent where
  records : List SesMsg
  deriving Repr, DecidableEq

/-- Errors `receive_email` can raise to its caller: the `IndexError`
from `event['Records'][0]` on an empty record list. -/
inductive RecvErr where
  | indexError
  deriving Repr, DecidableEq

/-- Python's `str.endswith`, modelled on the character lists of the
two strings. -/
def endswith (s suffix : String) : Bool :=
  suffix.data.isSuffixOf s.data

/-- `receive_email(event, context)`:  read the first SES record,
scrape name and confirmation number from it (on failure log and
return `None`), add the sender as notification address unless the
mail comes straight from southwest.com, start the state machine and
return the execution handle with `startDate` stripped.
`find` models `email.find_name_and_confirmation_number`; `start`
models `sfn.start_execution` applied to the state machine ARN and the
JSON-serialized reservation. -/
def receive_email (find : SesMsg → Except String Resv)
    (start : String → Resv → Execution)
    (state_machine_arn : String) (event : ReceiveEvent) :
    Except RecvErr (Option ExecResult) :=
  match event.records with
  | [] => .error .indexError
  | ses_msg :: _ =>
      match find ses_msg with
      | .error _e => .ok none          -- log.error(...); return
      | .ok reservation =>
          -- Don't add the email if it's straight from southwest.com
          let reservation :=
            if endswith ses_msg.source "southwest.com" then reservation
            else { reservation with email := some ses_msg.source }
          let execution := start state_machine_arn reservation
          -- del(execution['startDate'])
          .ok (some { executionArn := execution.executionArn })

/-- One invocation of the (State Machine → Executor) pair: the Step
Function runs `schedule_check_in` and feeds its output state to
`check_in`.  A scheduling error aborts before the executor runs. -/
def invokePair (swa : Swa) (ev : Event) : Except SchedErr (CheckInOutcome × Event) :=
  match schedule_check_in swa ev with
  | .error e => .error e
  | .ok ev' => .ok (check_in swa ev')

/-- The orchestrated run: the external orchestrator re-invokes the
pair exactly while the executor raises `NotLastCheckIn`, threading
the state through.  The result is the list of executor outcomes, one
entry per pair invocation; `fuel` bounds the number of iterations. -/
def runTrace (swa : Swa) (fuel : Nat) (ev : Event) : List CheckInOutcome :=
  match fuel with
  | 0 => []
  | fuel + 1 =>
    match invokePair swa ev with
    | .error _ => []
    | .ok (out, ev') =>
        if out = CheckInOutcome.notLastCheckIn then out :: runTrace swa fuel ev'
        else [out]

/-! Concrete fixtures used by witnesses and counterexamples. -/

/-- A gateway on which every call succeeds and the planner returns
the queue `["T+5d", "T+2d"]` of the spec's scenario. -/
def goodSwa : Swa where
  get_reservation := fun _ _ _ => .ok "RES"
  get_check_in_times_from_reservation := fun _ => ["T+5d", "T+2d"]
  check_in := fun _ _ _ => .ok "resp"
  email_boarding_pass := fun _ _ _ _ => .ok ()

/-- `goodSwa` with a failing gateway check-in call. -/
def gwFailSwa : Swa :=
  { goodSwa with check_in := fun _ _ _ => .error "gateway down" }

/-- `goodSwa` with a failing boarding-pass delivery. -/
def smtpFailSwa : Swa :=
  { goodSwa with email_boarding_pass := fun _ _ _ _ => .error "smtp failure" }

/-- A fresh identity-only event: no `check_in_times` key yet. -/
def bareEv : Event :=
  { first_name := "A", last_name := "B", confirmation_number := "C",
    email := none, check_in_times := none }

/-- The state after the first plan-then-pop on `bareEv` with
`goodSwa`: `T+2d` was popped into `next`, `T+5d` is still pending. -/
def scenEv1 : Event :=
  { bareEv with check_in_times := some { remaining := ["T+5d"], next := some "T+2d" } }

/-- The state after the second pop: `T+5d` popped, queue empty. -/
def scenEv2 : Event :=
  { bareEv with check_in_times := some { remaining := [], next := some "T+5d" } }

/-- An exhausted state: `check_in_times` present with empty
`remaining`. -/
def exhaustedEv : Event :=
  { bareEv with check_in_times := some { remaining := [], next := some "T+5d" } }

/-- A mid-run state carrying a notification recipient. -/
def evMail : Event :=
  { first_name := "A", last_name := "B", confirmation_number := "C",
    email := some "friend@example.com",
    check_in_times := some { remaining := ["T+5d"], next := some "T+2d" } }

/-- An extractor that always fails, for the unparsable-mail scenario. -/
def badFind : SesMsg → Except String Resv := fun _ => .error "unparsable"

/-- The reservation the extractor scrapes in the C10 scenario: no
`email` key. -/
def resv0 : Resv :=
  { first_name := "A", last_name := "B", confirmation_number := "C", email := none }

/-- An extractor that always succeeds with `resv0`. -/
def findOk : SesMsg → Except String Resv := fun _ => .ok resv0

/-- A concrete Step Functions client. -/
def start0 : String → Resv → Execution := fun _ _ =>
  { executionArn := "arn:aws:states:exec", startDate := "2017-01-01" }

/-- An inbound message whose true origin is the airline's domain. -/
def msgSW : SesMsg := { source := "noreply@southwest.com", message_id := "m1" }

/-- An otherwise-identical inbound message from a third party. -/
def msgFr : SesMsg := { source := "friend@example.com", message_id := "m2" }

/-! Helper lemmas shared by several developments. -/

theorem popLast_eq_none {α : Type} {l : List α} (h : popLast l = none) : l = [] := by
  unfold popLast at h
  cases hr : l.reverse with
  | nil => simpa using congrArg List.reverse hr
  | cons x rs => rw [hr] at h; simp at h

theorem popLast_spec {α : Type} {l rest : List α} {t : α}
    (h : popLast l = some (t, rest)) : l = rest ++ [t] := by
  unfold popLast at h
  cases hr : l.reverse with
  | nil => rw [hr] at h; simp at h
  | cons x rs =>
      rw [hr] at h
      simp only [Option.some.injEq, Prod.mk.injEq] at h
      obtain ⟨ht, hrest⟩ := h
      have hl : l = (x :: rs).reverse := by
        rw [← hr, List.reverse_reverse]
      rw [hl, List.reverse_cons, ht, hrest]

theorem popLast_of_ne_nil {α : Type} {l : List α} (h : l ≠ []) :
    ∃ t rest, popLast l = some (t, rest) := by
  unfold popLast
  cases hr : l.reverse with
  | nil => exact absurd (by simpa using congrArg List.reverse hr) h
  | cons x rs => exact ⟨x, rs.reverse, rfl⟩

theorem check_in_snd_eq (swa : Swa) (ev : Event) : (check_in swa ev).2 = ev := by
  cases h : swa.check_in ev.first_name ev.last_name ev.confirmation_number with
  | error e => simp [check_in, h]
  | ok resp =>
      cases hct : ev.check_in_times with
      | none => simp [check_in, h, hct]
      | some ct =>
          by_cases hr : ct.remaining.length > 0 <;> simp [check_in, h, hct, hr]

theorem check_in_fst_of_ok (swa : Swa) (ev : Event) (ct : CheckInTimes) (resp : String)
    (hct : ev.check_in_times = some ct)
    (hok : swa.check_in ev.first_name ev.last_name ev.confirmation_number = .ok resp) :
    (check_in swa ev).1 =
      (if ct.remaining.length > 0 then CheckInOutcome.notLastCheckIn
       else CheckInOutcome.done) := by
  by_cases hr : ct.remaining.length > 0 <;> simp [check_in, hok, hct, hr]

theorem schedule_popped (swa : Swa) (ev : Event) (ct : CheckInTimes)
    (t : String) (rest : List String)
    (hct : ev.check_in_times = some ct)
    (hpop : popLast ct.remaining = some (t, rest)) :
    schedule_check_in swa ev =
      .ok { ev with check_in_times := some { remaining := rest, next := some t } } := by
  rw [schedule_check_in]
  split
  · rename_i ct' heq
    rw [hct] at heq
    obtain rfl : ct = ct' := Option.some.inj heq
    simp [hpop]
  · rename_i heq
    rw [hct] at heq
    cases heq

theorem schedule_empty (swa : Swa) (ev : Event) (ct : CheckInTimes)
    (hct : ev.check_in_times = some ct) (hr : ct.remaining = []) :
    schedule_check_in swa ev = .error SchedErr.indexError := by
  rw [schedule_check_in]
  split
  · rename_i ct' heq
    rw [hct] at heq
    obtain rfl : ct = ct' := Option.some.inj heq
    simp [hr, popLast]
  · rename_i heq
    rw [hct] at heq
    cases heq

theorem schedule_bare_unfold (swa : Swa) (ev : Event) (res : String)
    (hbare : ev.check_in_times = none)
    (hres : swa.get_reservation ev.first_name ev.last_name ev.confirmation_number = .ok res) :
    schedule_check_in swa ev =
      schedule_check_in swa
        { ev with
          check_in_times := some { remaining := swa.get_check_in_times_from_reservation res,
                                   next := none } } := by
  conv_lhs => rw [schedule_check_in]
  split
  · rename_i ct' heq
    rw [hbare] at heq
    cases heq
  · rename_i heq
    rw [hres]

theorem invokePair_planned (swa : Swa) (ev : Event) (ct : CheckInTimes)
    (t : String) (rest : List String)
    (hct : ev.check_in_times = some ct)
    (hpop : popLast ct.remaining = some (t, rest))
    (hgw : ∀ f l c, ∃ r, swa.check_in f l c = Except.ok r) :
    invokePair swa ev =
      .ok ((if rest.length > 0 then CheckInOutcome.notLastCheckIn else CheckInOutcome.done),
           { ev with check_in_times := some { remaining := rest, next := some t } }) := by
  have hsched := schedule_popped swa ev ct t rest hct hpop
  set ev' : Event :=
    { ev with check_in_times := some { remaining := rest, next := some t } } with hev'
  obtain ⟨r, hr⟩ := hgw ev'.first_name ev'.last_name ev'.confirmation_number
  have hfst := check_in_fst_of_ok swa ev' { remaining := rest, next := some t } r rfl hr
  have hsnd := check_in_snd_eq swa ev'
  have hpair : check_in swa ev' =
      ((if rest.length > 0 then CheckInOutcome.notLastCheckIn else CheckInOutcome.done), ev') := by
    apply Prod.ext <;> simp [hfst, hsnd]
  unfold invokePair
  rw [hsched]
  show Except.ok (check_in swa ev') = _
  rw [hpair]

theorem runTrace_planned (swa : Swa)
    (hgw : ∀ f l c, ∃ r, swa.check_in f l c = Except.ok r) :
    ∀ (fuel : Nat) (ev : Event) (ct : CheckInTimes),
      ev.check_in_times = some ct → ct.remaining ≠ [] → ct.remaining.length ≤ fuel →
      runTrace swa fuel ev =
        List.replicate (ct.remaining.length - 1) CheckInOutcome.notLastCheckIn ++
          [CheckInOutcome.done] := by
  intro fuel
  induction fuel with
  | zero =>
      intro ev ct hct hne hle
      exact absurd (List.length_eq_zero.mp (Nat.le_zero.mp hle)) hne
  | succ fuel ih =>
      intro ev ct hct hne hle
      obtain ⟨t, rest, hpop⟩ := popLast_of_ne_nil hne
      have hstep := invokePair_planned swa ev ct t rest hct hpop hgw
      have hlen : ct.remaining.length = rest.length + 1 := by
        rw [popLast_spec hpop]; simp
      by_cases hrest : rest = []
      · subst hrest
        simp only [runTrace, hstep, List.length_nil, gt_iff_lt, Nat.lt_irrefl, if_false]
        simp [hlen]
      · obtain ⟨a, tl, rfl⟩ : ∃ a tl, rest = a :: tl := by
          cases rest with
          | nil => exact absurd rfl hrest
          | cons a tl => exact ⟨a, tl, rfl⟩
        have ih' := ih
          { ev with check_in_times := some { remaining := a :: tl, next := some t } }
          { remaining := a :: tl, next := some t } rfl (by simp)
          (by simp only [List.length_cons] at hlen hle ⊢; omega)
        simp only [runTrace, hstep]
        simp [ih', hlen, List.replicate_succ]

/-! Claim theorems. -/

/-- Claim C3: when the gateway check-in call succeeds, `check_in`
raises the continuation signal `NotLastCheckIn` if and only if the
pending queue `check_in_times.remaining` is non-empty; when the queue
is empty it returns without raising (outcome `done`). -/
theorem check_in_continuation_iff_pending_nonempty
    (swa : Swa) (ev : Event) (ct : CheckInTimes) (resp : String)
    (hct : ev.check_in_times = some ct)
    (hok : swa.check_in ev.first_name ev.last_name ev.confirmation_number = .ok resp) :
    ((check_in swa ev).1 = CheckInOutcome.notLastCheckIn ↔ ct.remaining ≠ []) ∧
    (ct.remaining = [] → (check_in swa ev).1 = CheckInOutcome.done) := by
  rw [check_in_fst_of_ok swa ev ct resp hct hok]
  by_cases hr : ct.remaining = []
  · simp [hr]
  · simp [List.length_pos.mpr hr, hr]

/-- Claim C3 witness: on `goodSwa` and the pending state `scenEv1`
(queue `["T+5d"]`), the continuation signal is raised. -/
theorem check_in_continuation_iff_pending_nonempty_witness :
    ((check_in goodSwa scenEv1).1 = CheckInOutcome.notLastCheckIn ↔
      (["T+5d"] : List String) ≠ []) ∧
    ((["T+5d"] : List String) = [] → (check_in goodSwa scenEv1).1 = CheckInOutcome.done) :=
  check_in_continuation_iff_pending_nonempty goodSwa scenEv1
    { remaining := ["T+5d"], next := some "T+2d" } "resp" rfl rfl

/-- Claim C4: when the gateway check-in call fails, `check_in`
propagates the failure as a fatal outcome and the continuation signal
is never emitted in that invocation, no matter what the pending queue
holds. -/
theorem check_in_gateway_failure_fatal (swa : Swa) (ev : Event) (e : String)
    (herr : swa.check_in ev.first_name ev.last_name ev.confirmation_number = .error e) :
    (check_in swa ev).1 = CheckInOutcome.checkInError e ∧
    (check_in swa ev).1 ≠ CheckInOutcome.notLastCheckIn := by
  simp [check_in, herr]

/-- Claim C4 witness: a failing gateway on the state `evMail`, whose
pending queue is non-empty, yields the fatal outcome, not the
continuation signal. -/
theorem check_in_gateway_failure_fatal_witness :
    (check_in gwFailSwa evMail).1 = CheckInOutcome.checkInError "gateway down" ∧
    (check_in gwFailSwa evMail).1 ≠ CheckInOutcome.notLastCheckIn :=
  check_in_gateway_failure_fatal gwFailSwa evMail "gateway down" rfl

/-- Claim C5: with a notification recipient present, a failure of
`swa.email_boarding_pass` is swallowed inside `check_in`: the state
(hence the pending queue) is unchanged, the continuation signal is
still raised when the queue is non-empty, and the whole result is
independent of the delivery function. -/
theorem check_in_swallows_notification_failure
    (swa : Swa) (ev : Event) (ct : CheckInTimes) (addr resp e : String)
    (hmail : ev.email = some addr)
    (hct : ev.check_in_times = some ct)
    (hok : swa.check_in ev.first_name ev.last_name ev.confirmation_number = .ok resp)
    (hfail : swa.email_boarding_pass ev.first_name ev.last_name
        ev.confirmation_number addr = .error e) :
    (check_in swa ev).2 = ev ∧
    (ct.remaining ≠ [] → (check_in swa ev).1 = CheckInOutcome.notLastCheckIn) ∧
    ∀ deliver : String → String → String → String → Except String Unit,
      check_in { swa with email_boarding_pass := deliver } ev = check_in swa ev := by
  refine ⟨check_in_snd_eq swa ev, ?_, ?_⟩
  · intro hne
    rw [check_in_fst_of_ok swa ev ct resp hct hok]
    simp [List.length_pos.mpr hne]
  · intro deliver
    simp [check_in]

/-- Claim C5 witness: on `smtpFailSwa` (boarding-pass delivery fails)
and the state `evMail` (recipient present, queue `["T+5d"]`), the
state is unchanged, the continuation signal is raised, and restoring
a succeeding delivery function changes nothing. -/
theorem check_in_swallows_notification_failure_witness :
    (check_in smtpFailSwa evMail).2 = evMail ∧
    (check_in smtpFailSwa evMail).1 = CheckInOutcome.notLastCheckIn ∧
    check_in { smtpFailSwa with email_boarding_pass := fun _ _ _ _ => Except.ok () } evMail =
      check_in smtpFailSwa evMail := by
  have h := check_in_swallows_notification_failure smtpFailSwa evMail
    { remaining := ["T+5d"], next := some "T+2d" } "friend@example.com" "resp"
    "smtp failure" rfl rfl rfl rfl
  exact ⟨h.1, h.2.1 (by simp), h.2.2 _⟩

/-- Claim C8 counterexample: `check_in` does NOT clear the `next`
field.  On `goodSwa` and the state `scenEv1` (whose `next` holds the
consumed opportunity `T+2d`), the state coming out of the executor
still has `next = some "T+2d"`, not `none`. -/
theorem check_in_does_not_clear_next_cex :
    (check_in goodSwa scenEv1).2.check_in_times.map CheckInTimes.next =
      some (some "T+2d") ∧
    (check_in goodSwa scenEv1).2.check_in_times.map CheckInTimes.next ≠ some none := by
  constructor <;> simp [check_in, goodSwa, scenEv1, bareEv]

/-- Claim C8 (amended): `check_in` leaves the workflow state it was
given entirely unchanged — in particular it does not clear
`check_in_times.next`; a consumed opportunity is nevertheless never
re-attempted, because the following `schedule_check_in` invocation
overwrites `next` with a fresh pop before the executor runs again. -/
theorem check_in_leaves_state_unchanged (swa : Swa) (ev : Event) :
    (check_in swa ev).2 = ev :=
  check_in_snd_eq swa ev

/-- Claim C2 counterexample: with the planner queue
`["T+5d", "T+2d"]`, the first invocation of `schedule_check_in` pops
`T+2d` — Python's `list.pop()` takes the LAST element — leaving
`pending = ["T+5d"]`, and NOT the state the claim describes
(`next = T+5d`, `pending = ["T+2d"]`). -/
theorem scenario_first_pop_cex :
    schedule_check_in goodSwa bareEv = .ok scenEv1 ∧
    scenEv1.check_in_times = some { remaining := ["T+5d"], next := some "T+2d" } ∧
    schedule_check_in goodSwa bareEv ≠
      .ok { bareEv with check_in_times := some { remaining := ["T+2d"],
                                                 next := some "T+5d" } } := by
  have h1 : schedule_check_in goodSwa bareEv = .ok scenEv1 := by
    simp [schedule_check_in, goodSwa, bareEv, scenEv1, popLast]
  refine ⟨h1, rfl, ?_⟩
  rw [h1]
  intro hcontra
  have h2 := Except.ok.inj hcontra
  simp [scenEv1, bareEv] at h2

/-- Claim C2 (amended): on the planner queue `["T+5d", "T+2d"]`, the
first invocation plans and pops the soonest opportunity `T+2d` into
`next`, leaving `pending = ["T+5d"]`, and the executor signals
continue; the second invocation pops `T+5d`, leaving `pending = []`,
and the executor signals complete. -/
theorem scenario_pops_soonest_first :
    schedule_check_in goodSwa bareEv = .ok scenEv1 ∧
    (check_in goodSwa scenEv1).1 = CheckInOutcome.notLastCheckIn ∧
    (check_in goodSwa scenEv1).2 = scenEv1 ∧
    schedule_check_in goodSwa scenEv1 = .ok scenEv2 ∧
    (check_in goodSwa scenEv2).1 = CheckInOutcome.done := by
  refine ⟨?_, ?_, ?_, ?_, ?_⟩ <;>
    simp [schedule_check_in, check_in, goodSwa, bareEv, scenEv1, scenEv2, popLast]

/-- Claim C6: `schedule_check_in` on a bare identity (no
`check_in_times` field) performs exactly one plan-then-pop cycle: its
output equals that of `schedule_check_in` on the same identity whose
`check_in_times.remaining` was pre-populated with the planner's
queue, and both are exactly one pop of that queue. -/
theorem schedule_bare_equals_prepopulated (swa : Swa) (ev : Event) (res : String)
    (hbare : ev.check_in_times = none)
    (hres : swa.get_reservation ev.first_name ev.last_name ev.confirmation_number = .ok res) :
    schedule_check_in swa ev =
      schedule_check_in swa
        { ev with
          check_in_times := some { remaining := swa.get_check_in_times_from_reservation res,
                                   next := none } } ∧
    schedule_check_in swa ev =
      (match popLast (swa.get_check_in_times_from_reservation res) with
       | none => .error SchedErr.indexError
       | some (t, rest) =>
           .ok { ev with check_in_times := some { remaining := rest, next := some t } }) := by
  have h1 := schedule_bare_unfold swa ev res hbare hres
  refine ⟨h1, ?_⟩
  rw [h1]
  cases hpop : popLast (swa.get_check_in_times_from_reservation res) with
  | none =>
      exact schedule_empty swa _ _ rfl (popLast_eq_none hpop)
  | some pr =>
      obtain ⟨t, rest⟩ := pr
      have h2 := schedule_popped swa
        { ev with
          check_in_times := some { remaining := swa.get_check_in_times_from_reservation res,
                                   next := none } }
        { remaining := swa.get_check_in_times_from_reservation res, next := none }
        t rest rfl hpop
      rw [h2]

/-- Claim C6 witness: on `goodSwa` and the bare event `bareEv`, the
bare call and the pre-populated call agree. -/
theorem schedule_bare_equals_prepopulated_witness :
    schedule_check_in goodSwa bareEv =
      schedule_check_in goodSwa
        { bareEv with
          check_in_times := some { remaining := goodSwa.get_check_in_times_from_reservation "RES",
                                   next := none } } :=
  (schedule_bare_equals_prepopulated goodSwa bareEv "RES" rfl rfl).1

/-- Claim C7: on a state with `check_in_times` present,
`schedule_check_in` never pops from an empty queue — a call against
the exhausted state raises `IndexError`, it is not handled or retried
— and pops exactly one opportunity otherwise (the new queue is one
element shorter). -/
theorem schedule_check_in_pops_at_most_one (swa : Swa) (ev : Event) (ct : CheckInTimes)
    (hct : ev.check_in_times = some ct) :
    (ct.remaining = [] → schedule_check_in swa ev = .error SchedErr.indexError) ∧
    (∀ t rest, popLast ct.remaining = some (t, rest) →
      schedule_check_in swa ev =
        .ok { ev with check_in_times := some { remaining := rest, next := some t } } ∧
      rest.length + 1 = ct.remaining.length) := by
  refine ⟨fun hr => schedule_empty swa ev ct hct hr, fun t rest hpop => ?_⟩
  refine ⟨schedule_popped swa ev ct t rest hct hpop, ?_⟩
  rw [popLast_spec hpop]
  simp

/-- Claim C7 witness: on the exhausted state the call errors with
`IndexError`; on the one-element state `scenEv1` exactly one
opportunity is popped. -/
theorem schedule_check_in_pops_at_most_one_witness :
    schedule_check_in goodSwa exhaustedEv = .error SchedErr.indexError ∧
    schedule_check_in goodSwa scenEv1 =
      .ok { scenEv1 with check_in_times := some { remaining := [], next := some "T+5d" } } ∧
    (0 : Nat) + 1 = (1 : Nat) := by
  refine ⟨(schedule_check_in_pops_at_most_one goodSwa exhaustedEv
    { remaining := [], next := some "T+5d" } rfl).1 rfl, ?_, ?_⟩
  · exact ((schedule_check_in_pops_at_most_one goodSwa scenEv1
      { remaining := ["T+5d"], next := some "T+2d" } rfl).2 "T+5d" [] rfl).1
  · have h := ((schedule_check_in_pops_at_most_one goodSwa scenEv1
      { remaining := ["T+5d"], next := some "T+2d" } rfl).2 "T+5d" [] rfl).2
    simpa using h

/-- Claim C1: for an identity whose reservation yields N check-in
opportunities (N = planner queue length, N ≥ 1), with a gateway on
which every check-in call succeeds, the orchestrated run performs
exactly N invocations of the `schedule_check_in` / `check_in` pair:
the outcome trace is N−1 continuation signals followed by one
completion, so the Nth invocation is the first that returns without
raising `NotLastCheckIn`. -/
theorem run_invokes_pair_exactly_n_times
    (swa : Swa) (ev : Event) (res : String) (fuel : Nat)
    (hbare : ev.check_in_times = none)
    (hres : swa.get_reservation ev.first_name ev.last_name ev.confirmation_number = .ok res)
    (hgw : ∀ f l c, ∃ r, swa.check_in f l c = Except.ok r)
    (hne : swa.get_check_in_times_from_reservation res ≠ [])
    (hfuel : (swa.get_check_in_times_from_reservation res).length ≤ fuel) :
    runTrace swa fuel ev =
      List.replicate ((swa.get_check_in_times_from_reservation res).length - 1)
        CheckInOutcome.notLastCheckIn ++ [CheckInOutcome.done] ∧
    (runTrace swa fuel ev).length =
      (swa.get_check_in_times_from_reservation res).length := by
  set q := swa.get_check_in_times_from_reservation res with hq
  set ev0 : Event := { ev with check_in_times := some { remaining := q, next := none } }
    with hev0
  have hsched := schedule_bare_unfold swa ev res hbare hres
  have hinv : invokePair swa ev = invokePair swa ev0 := by
    unfold invokePair
    rw [hsched]
  have hq1 : 1 ≤ q.length := List.length_pos.mpr hne
  obtain ⟨fuel, rfl⟩ : ∃ f, fuel = f + 1 := ⟨fuel - 1, by omega⟩
  have htr : runTrace swa (fuel + 1) ev = runTrace swa (fuel + 1) ev0 := by
    simp only [runTrace, hinv]
  have hmain := runTrace_planned swa hgw (fuel + 1) ev0
    { remaining := q, next := none } rfl hne hfuel
  rw [htr, hmain]
  refine ⟨rfl, ?_⟩
  simp
  omega

/-- Claim C1 witness: with `goodSwa` (planner queue of length 2) and
the bare event, the run makes exactly 2 pair invocations, the second
being the first to signal completion. -/
theorem run_invokes_pair_exactly_n_times_witness :
    runTrace goodSwa 2 bareEv = [CheckInOutcome.notLastCheckIn, CheckInOutcome.done] ∧
    (runTrace goodSwa 2 bareEv).length = 2 := by
  have h := run_invokes_pair_exactly_n_times goodSwa bareEv "RES" 2 rfl rfl
    (fun _ _ _ => ⟨"resp", rfl⟩) (by simp [goodSwa]) (by simp [goodSwa])
  constructor
  · rw [h.1]
    rfl
  · rw [h.2]
    rfl

/-- Claim C9: when identity extraction fails, `receive_email` logs
and returns nothing: the result is a normal return of `None` (no
exception reaches the caller) and it is independent of the Step
Functions client, so no orchestrator run is started. -/
theorem receive_email_swallows_extraction_failure
    (find : SesMsg → Except String Resv) (msg : SesMsg) (rest : List SesMsg) (e : String)
    (hfind : find msg = .error e) :
    ∀ (start start2 : String → Resv → Execution) (arn : String),
      receive_email find start arn { records := msg :: rest } = .ok none ∧
      receive_email find start arn { records := msg :: rest } =
        receive_email find start2 arn { records := msg :: rest } := by
  intro start start2 arn
  constructor <;> simp [receive_email, hfind]

/-- Claim C9 witness: an unparsable message from
`friend@example.com` yields `.ok none`, identically for two
different Step Functions clients. -/
theorem receive_email_swallows_extraction_failure_witness :
    receive_email badFind start0 "SM_ARN" { records := [msgFr] } = .ok none ∧
    receive_email badFind start0 "SM_ARN" { records := [msgFr] } =
      receive_email badFind
        (fun _ _ => { executionArn := "other", startDate := "d" }) "SM_ARN"
        { records := [msgFr] } :=
  receive_email_swallows_extraction_failure badFind msgFr [] "unparsable" rfl
    start0 (fun _ _ => { executionArn := "other", startDate := "d" }) "SM_ARN"

/-- Claim C10: `receive_email` passes `start_execution` a reservation
whose `email` key is set to the sender exactly when the sender
address does not end in `southwest.com`; in particular, a message
from `noreply@southwest.com` starts the run with no notify recipient,
while an otherwise-identical message from `friend@example.com` starts
it with `email = friend@example.com`. -/
theorem receive_email_notify_only_when_external
    (find : SesMsg → Except String Resv) (start : String → Resv → Execution)
    (arn : String) (msg : SesMsg) (r : Resv) (rest : List SesMsg)
    (hfind : find msg = .ok r) (hr : r.email = none) :
    receive_email find start arn { records := msg :: rest } =
      .ok (some { executionArn :=
        (start arn (if endswith msg.source "southwest.com" then r
                    else { r with email := some msg.source })).executionArn }) ∧
    (msg.source = "noreply@southwest.com" →
      receive_email find start arn { records := msg :: rest } =
        .ok (some { executionArn := (start arn r).executionArn })) ∧
    (msg.source = "friend@example.com" →
      receive_email find start arn { records := msg :: rest } =
        .ok (some { executionArn :=
          (start arn { r with email := some "friend@example.com" }).executionArn })) := by
  have hgen : receive_email find start arn { records := msg :: rest } =
      .ok (some { executionArn :=
        (start arn (if endswith msg.source "southwest.com" then r
                    else { r with email := some msg.source })).executionArn }) := by
    simp [receive_email, hfind]
  refine ⟨hgen, ?_, ?_⟩
  · intro hsw
    rw [hgen, hsw]
    have hends : endswith "noreply@southwest.com" "southwest.com" = true := by decide
    rw [hends]
    simp
  · intro hfr
    rw [hgen, hfr]
    have hends : endswith "friend@example.com" "southwest.com" = false := by decide
    rw [hends]
    simp

/-- Claim C10 witness: the two concrete scenario messages, with the
extractor returning a reservation carrying no `email` key. -/
theorem receive_email_notify_only_when_external_witness :
    receive_email findOk start0 "SM_ARN" { records := [msgSW] } =
      .ok (some { executionArn := (start0 "SM_ARN" resv0).executionArn }) ∧
    receive_email findOk start0 "SM_ARN" { records := [msgFr] } =
      .ok (some { executionArn :=
        (start0 "SM_ARN" { resv0 with email := some "friend@example.com" }).executionArn }) :=
  ⟨(receive_email_notify_only_when_external findOk start0 "SM_ARN" msgSW resv0 []
      rfl rfl).2.1 rfl,
   (receive_email_notify_only_when_external findOk start0 "SM_ARN" msgFr resv0 []
      rfl rfl).2.2 rfl⟩

end Handler
